import Mathlib

/-!
Verification of the overlay placement and font-fallback engine of the
PDF-Easy-Edits repository.

The repository contains two generations of the engine:

* the current component `src/src/components/PDFEditor.tsx` (index-only page
  numbering, single-line header always placed at
  `width - textWidth - distanceFromRight`), embedded below with plain names
  (`applyEdits`, `pageNumberDraws`, `headerDraws`, `positionXY`,
  `loadCustomFont`, `hexToRgb`);
* the earlier snapshot `src/unnamed/part_001` (first document, lines 50–313:
  counter-seeded numbering starting at `startPage`, multi-line Hebrew-aware
  header), embedded with a `V1` suffix.

Strings are modelled as `List Char`; JavaScript numbers that hold page
coordinates and sizes as `ℚ`; page indices as `ℕ`; the user-supplied
`startPage`/`startNumber` as `ℤ`.  Font objects are opaque: a resolved font is
modelled by its `widthOfTextAtSize` metric (`FontMetrics`), supplied by the
caller, since the engine treats the PDF library's font as a black box.
A `page.drawText` call is recorded as a `DrawCall`.
-/

namespace PdfEasyEdits

/-- Model of a JavaScript string: a list of characters. -/
abbrev Str := List Char

/-- Characters stripped by JavaScript `String.prototype.trim` that can occur
in this application (ASCII whitespace, NBSP and BOM). -/
def isJsSpace (c : Char) : Bool :=
  c == ' ' || c == '\t' || c == '\n' || c == '\r' ||
  c == '\x0b' || c == '\x0c' || c == ' ' || c == '﻿'

/-- Model of JavaScript `s.trim()`: drop whitespace from both ends. -/
def jsTrim (cs : Str) : Str :=
  ((cs.dropWhile isJsSpace).reverse.dropWhile isJsSpace).reverse

/-- Value of one hexadecimal digit as accepted by `parseInt(·, 16)`
(`0-9`, `a-f`, `A-F`). -/
def hexDigitVal (c : Char) : Option Nat :=
  let n := c.toNat
  if 48 ≤ n ∧ n ≤ 57 then some (n - 48)
  else if 97 ≤ n ∧ n ≤ 102 then some (n - 87)
  else if 65 ≤ n ∧ n ≤ 70 then some (n - 55)
  else none

/-- Accumulate the value of a maximal run of leading hex digits
(`parseInt` parses the longest valid numeric head and ignores the rest). -/
def hexRunVal : Nat → Str → Nat
  | acc, [] => acc
  | acc, c :: cs =>
    match hexDigitVal c with
    | some d => hexRunVal (16 * acc + d) cs
    | none => acc

/-- Model of JavaScript `parseInt(cs, 16)` on the two-character slices taken
by `hexToRgb`: `none` models the `NaN` result produced when the first
character is not a hex digit; otherwise the value of the leading digit run. -/
def jsParseIntHex (cs : Str) : Option Nat :=
  match cs with
  | [] => none
  | c :: rest =>
    match hexDigitVal c with
    | some d => some (hexRunVal d rest)
    | none => none

/-- Model of `hex.replace(/^#/, '')`: strip one leading `#` if present. -/
def stripHash (cs : Str) : Str :=
  match cs with
  | [] => []
  | c :: rest => if c = '#' then rest else c :: rest

/-- `hexToRgb` of `src/src/components/PDFEditor.tsx` lines 59–69 (the same
arithmetic appears in `src/unnamed/part_001` lines 51–61 and
`src/unnamed/part_002` lines 621–631): strip the hash, parse the slices
`[0,2)`, `[2,4)`, `[4,6)` as base-16 integers and divide by 255.
`none` models the `NaN` components produced on malformed input. -/
def hexToRgb (hex : Str) : Option (ℚ × ℚ × ℚ) :=
  let h := stripHash hex
  match jsParseIntHex (h.take 2), jsParseIntHex ((h.drop 2).take 2),
        jsParseIntHex ((h.drop 4).take 2) with
  | some r, some g, some b =>
    some ((r : ℚ) / 255, (g : ℚ) / 255, (b : ℚ) / 255)
  | _, _, _ => none

/-- Result of `page.getSize()`: width and height in point units. -/
structure PageGeom where
  width : ℚ
  height : ℚ
deriving DecidableEq, Repr

/-- One `page.drawText(text, { x, y, size, font, color })` call, recorded with
the index of the mutated page.  The font argument is not recorded (it is the
single resolved font of the issuing step); the color is the parsed triple. -/
structure DrawCall where
  pageIdx : Nat
  text : Str
  x : ℚ
  y : ℚ
  size : ℚ
  color : Option (ℚ × ℚ × ℚ)
deriving DecidableEq, Repr

/-- `widthOfTextAtSize` metric of one resolved font. -/
abbrev FontMetrics := Str → ℚ → ℚ

/-- Font resolution oracle used by the placement passes: given the requested
family name and bold flag, yields the metric of the font that
`loadCustomFont` resolved (possibly the fallback's metric). -/
abbrev FontLoader := Str → Bool → FontMetrics

/-- `pageNumbering` member of `EditorSettings` in
`src/src/components/PDFEditor.tsx` lines 21–30. -/
structure PageNumberingSettings where
  enabled : Bool
  startPage : Int
  startNumber : Int
  position : Str
  font : Str
  fontSize : ℚ
  color : Str
  bold : Bool

/-- `header` member of `EditorSettings` in
`src/src/components/PDFEditor.tsx` lines 31–41. -/
structure HeaderSettings where
  enabled : Bool
  text : Str
  firstPageOnly : Bool
  distanceFromRight : ℚ
  distanceFromTop : ℚ
  font : Str
  fontSize : ℚ
  color : Str
  bold : Bool

/-- `EditorSettings` of `src/src/components/PDFEditor.tsx` lines 20–42. -/
structure EditorSettings where
  pageNumbering : PageNumberingSettings
  header : HeaderSettings

/-- The `switch (data.pageNumbering.position)` of
`src/src/components/PDFEditor.tsx` lines 227–252: exact match on the position
string; both coordinates stay at their initialisation value 0 when no case
matches.  The margin constant of this variant is 50. -/
def positionXY (position : Str) (width height textWidth : ℚ) : ℚ × ℚ :=
  if position = "bottom-center".data then ((width - textWidth) / 2, 50)
  else if position = "bottom-right".data then (width - textWidth - 50, 50)
  else if position = "bottom-left".data then (50, 50)
  else if position = "top-center".data then ((width - textWidth) / 2, height - 50)
  else if position = "top-right".data then (width - textWidth - 50, height - 50)
  else if position = "top-left".data then (50, height - 50)
  else (0, 0)

/-- Page-numbering loop of `src/src/components/PDFEditor.tsx` lines 216–261:
for every page index `i` the label is the literal `` `${i + 1}` ``
(`startPage` and `startNumber` are not consulted), measured with the resolved
font and placed by `positionXY`. -/
def pageNumberDraws (widthOf : FontMetrics) (pages : List PageGeom)
    (pn : PageNumberingSettings) : List DrawCall :=
  pages.enum.map fun ip =>
    let text : Str := (toString (ip.1 + 1)).data
    let tw := widthOf text pn.fontSize
    let xy := positionXY pn.position ip.2.width ip.2.height tw
    { pageIdx := ip.1, text := text, x := xy.1, y := xy.2,
      size := pn.fontSize, color := hexToRgb pn.color }

/-- Header loop of `src/src/components/PDFEditor.tsx` lines 274–291: the whole
header text is drawn as one line per target page at
`x = width - textWidth - distanceFromRight`, `y = height - distanceFromTop`
(no Hebrew test, no clamping, no newline splitting).  `pagesToProcess` is
`[pages[0]]` when `firstPageOnly` (the caller has already ruled out an empty
page list), else all pages. -/
def headerDraws (widthOf : FontMetrics) (pages : List PageGeom)
    (h : HeaderSettings) : List DrawCall :=
  let targets := if h.firstPageOnly then pages.enum.take 1 else pages.enum
  targets.map fun ip =>
    let tw := widthOf h.text h.fontSize
    { pageIdx := ip.1, text := h.text,
      x := ip.2.width - tw - h.distanceFromRight,
      y := ip.2.height - h.distanceFromTop,
      size := h.fontSize, color := hexToRgb h.color }

/-- Errors thrown by `applyEdits` of `src/src/components/PDFEditor.tsx`:
the zero-pages check (line 206–208), the catch of the numbering step
(line 262–265) and the catch of the header step (line 292–295). -/
inductive EditError
  | emptyDocument
  | pageNumberingError
  | headerError
deriving DecidableEq, Repr

/-- `applyEdits` of `src/src/components/PDFEditor.tsx` lines 197–303,
restricted to its document mutations: load the pages, fail with the
zero-pages error on an empty document, then run the numbering step when
`pageNumbering.enabled` and the header step when `header.enabled` and the
trimmed header text is non-empty, and serialize.  The result collects the
issued draw calls in order.  The per-step catch branches
(`pageNumberingError`, `headerError`) are unreachable here because the
modelled font metric and draw primitives are total, matching §4.1's guarantee
that font resolution never throws. -/
def applyEdits (loadFont : FontLoader) (pages : List PageGeom)
    (s : EditorSettings) : Except EditError (List DrawCall) :=
  if pages.length = 0 then .error .emptyDocument
  else
    let numberingDraws :=
      if s.pageNumbering.enabled then
        pageNumberDraws (loadFont s.pageNumbering.font s.pageNumbering.bold)
          pages s.pageNumbering
      else []
    let headerDraws' :=
      if s.header.enabled && !(jsTrim s.header.text).isEmpty then
        headerDraws (loadFont s.header.font s.header.bold) pages s.header
      else []
    .ok (numberingDraws ++ headerDraws')

/-! ## Earlier snapshot: `src/unnamed/part_001`, first document (lines 15–313)

This generation has no `enabled` flags: the numbering step runs whenever
`startPage > 0` and the header step whenever the header text is non-blank.
Its `applyEdits` catches every thrown error itself and returns `null`
(modelled as `Option`). -/

/-- `pageNumbering` member of `EditorSettings` in `src/unnamed/part_001`
lines 16–24. -/
structure PageNumberingV1 where
  startPage : Int
  startNumber : Int
  position : Str
  font : Str
  fontSize : ℚ
  color : Str
  isBold : Bool

/-- `header` member of `EditorSettings` in `src/unnamed/part_001`
lines 25–33; `position.x`/`position.y` are centimetre distances from the
right and top edges. -/
structure HeaderV1 where
  text : Str
  firstPageOnly : Bool
  posX : ℚ
  posY : ℚ
  font : Str
  fontSize : ℚ
  color : Str
  isBold : Bool

/-- `EditorSettings` of `src/unnamed/part_001` lines 15–34. -/
structure EditorSettingsV1 where
  pageNumbering : PageNumberingV1
  header : HeaderV1

/-- Model of JavaScript `hay.includes(needle)` on strings. -/
def inclStr (hay needle : Str) : Bool :=
  match hay with
  | [] => needle.isEmpty
  | _ :: t => needle.isPrefixOf hay || inclStr t needle

/-- Position computation of `src/unnamed/part_001` lines 211–229:
substring tests on the position string (`includes`), margin constant 30;
both coordinates stay at their initialisation value 0 when nothing matches. -/
def positionXYV1 (position : Str) (width height textWidth : ℚ) : ℚ × ℚ :=
  let x :=
    if inclStr position "center".data then (width - textWidth) / 2
    else if inclStr position "right".data then width - textWidth - 30
    else if inclStr position "left".data then 30
    else 0
  let y :=
    if inclStr position "bottom".data then 30
    else if inclStr position "top".data then height - 30
    else 0
  (x, y)

/-- Page-numbering loop of `src/unnamed/part_001` lines 192–242: a counter
seeded with `startNumber` labels the pages from
`startPageIndex = min(startPage - 1, pageCount - 1)` onward, incrementing by
one per numbered page.  The definition is used under the caller's guard
`startPage > 0` and the non-empty-document check, under which the `toNat`
and truncated subtraction agree with the JavaScript arithmetic. -/
def pageNumberDrawsV1 (widthOf : FontMetrics) (pages : List PageGeom)
    (pn : PageNumberingV1) : List DrawCall :=
  let startPageIndex : Nat := min (pn.startPage - 1).toNat (pages.length - 1)
  (pages.enum.drop startPageIndex).map fun ip =>
    let currentNumber : Int :=
      pn.startNumber + ((ip.1 : Int) - (startPageIndex : Int))
    let text : Str := (toString currentNumber).data
    let tw := widthOf text pn.fontSize
    let xy := positionXYV1 pn.position ip.2.width ip.2.height tw
    { pageIdx := ip.1, text := text, x := xy.1, y := xy.2,
      size := pn.fontSize, color := hexToRgb pn.color }

/-- Character class of the regex `/[֐-׿]/`: one character of the
Hebrew Unicode block. -/
def isHebrewChar (c : Char) : Bool :=
  0x590 ≤ c.toNat && c.toNat ≤ 0x5FF

/-- Per-page line loop of the header step, `src/unnamed/part_001`
lines 264–296: the trimmed header text is split on `'\n'`; blank lines are
skipped (without advancing `y`); a line containing a Hebrew character is
right-aligned at `width - marginRight - textWidth`, any other line
left-aligned at `marginRight`; the draw x is clamped with `Math.max(0, x)`;
`y` starts at `height - marginTop` and drops by `fontSize * 1.5` after each
drawn line. -/
def headerPageDrawsV1 (widthOf : FontMetrics) (idx : Nat) (page : PageGeom)
    (h : HeaderV1) (marginRight marginTop : ℚ) : List DrawCall :=
  let lines := (jsTrim h.text).splitOn '\n'
  (lines.foldl
    (fun acc line =>
      if (jsTrim line).isEmpty then acc
      else
        let containsHebrew := line.any isHebrewChar
        let tw := widthOf line h.fontSize
        let x := if containsHebrew then page.width - marginRight - tw
                 else marginRight
        (acc.1 ++ [{ pageIdx := idx, text := line, x := max 0 x, y := acc.2,
                     size := h.fontSize, color := hexToRgb h.color }],
         acc.2 - h.fontSize * (3 / 2 : ℚ)))
    (([] : List DrawCall), page.height - marginTop)).1

/-- Header step of `src/unnamed/part_001` lines 246–302: centimetre
distances are converted with `* 28.35`; the target pages are `[pages[0]]`
when `firstPageOnly`, else all pages. -/
def headerDrawsV1 (widthOf : FontMetrics) (pages : List PageGeom)
    (h : HeaderV1) : List DrawCall :=
  let marginRight := h.posX * (2835 / 100 : ℚ)
  let marginTop := h.posY * (2835 / 100 : ℚ)
  let targets := if h.firstPageOnly then pages.enum.take 1 else pages.enum
  targets.flatMap fun ip =>
    headerPageDrawsV1 widthOf ip.1 ip.2 h marginRight marginTop

/-- `applyEdits` of `src/unnamed/part_001` lines 176–313, restricted to its
document mutations.  The surrounding `try`/`catch` converts every thrown
error (in particular the zero-pages check of lines 183–185) into an alert
plus `return null`, so the result is an `Option`: `none` models the `null`
of a failed edit.  The numbering step runs when `startPage > 0`
(line 188), the header step when the header text is truthy and non-blank
(line 246). -/
def applyEditsV1 (loadFont : FontLoader) (pages : List PageGeom)
    (s : EditorSettingsV1) : Option (List DrawCall) :=
  if pages.length = 0 then none
  else
    let numberingDraws :=
      if 0 < s.pageNumbering.startPage then
        pageNumberDrawsV1 (loadFont s.pageNumbering.font s.pageNumbering.isBold)
          pages s.pageNumbering
      else []
    let headerDraws' :=
      if !s.header.text.isEmpty && !(jsTrim s.header.text).isEmpty then
        headerDrawsV1 (loadFont s.header.font s.header.isBold) pages s.header
      else []
    some (numberingDraws ++ headerDraws')

/-! ## Font resolution: `loadCustomFont` of `src/src/components/PDFEditor.tsx`
lines 72–111

The PDF library's fetch/embed/encode primitives are modelled by an oracle
world whose operations may throw (`Except Unit`).  Embedding one of the
built-in standard fonts (`StandardFonts.TimesRoman`) needs no font bytes and
no fontkit and is modelled as total — every fallback branch of the source
relies on it. -/

/-- An embedded custom font object, identified opaquely. -/
structure EmbeddedFont where
  id : Nat
deriving DecidableEq, Repr

/-- A font returned by `loadCustomFont`: the built-in standard serif font
(`StandardFonts.TimesRoman`) or an embedded fetched font. -/
inductive Font
  | standard
  | custom (f : EmbeddedFont)
deriving DecidableEq, Repr

/-- Oracle world for the asynchronous font pipeline: `fetch` yields the
response's `ok` flag and bytes or throws (network error); `embedBytes`
models `pdfDoc.embedFont` on fetched bytes; `encodeText` models
`font.encodeText` on an embedded font. -/
structure FontWorld where
  fetch : Str → Except Unit (Bool × List Nat)
  embedBytes : List Nat → Except Unit EmbeddedFont
  encodeText : EmbeddedFont → Str → Except Unit Unit

/-- Canary string of the Hebrew-support probe
(`src/src/components/PDFEditor.tsx` line 99). -/
def hebrewTest : Str := "שלום".data

/-- The `switch (fontName)` of `src/src/components/PDFEditor.tsx`
lines 78–88: the asset path for the two known families (the bold variant
exists only for Roboto; Times-New-Roman has a single static file), `none`
for the default case. -/
def fontPathOf (fontName : Str) (bold : Bool) : Option Str :=
  if fontName = "Roboto".data then
    some (if bold then "./fonts/Roboto-Bold.ttf".data
          else "./fonts/Roboto-Regular.ttf".data)
  else if fontName = "Times-New-Roman".data then
    some "./fonts/times-new-roman.ttf".data
  else none

/-- `loadCustomFont` of `src/src/components/PDFEditor.tsx` lines 72–111 as a
function of the oracle world.  The result is `Except Unit Font` so that an
exception escaping to the caller would be representable as `.error`; each
`catch` of the source recovers to the standard font:

* unknown family (`default` case, line 85–87): warn and embed the standard
  font;
* fetch throws, or `!fontResponse.ok` (lines 91–94): the inner catch
  (lines 103–106) returns the standard font;
* `embedFont` throws (line 96): inner catch, standard font;
* the Hebrew probe `font.encodeText('שלום')` throws (lines 98–100): inner
  catch, standard font;
* otherwise the embedded fetched font is returned. -/
def loadCustomFont (w : FontWorld) (fontName : Str) (bold : Bool) :
    Except Unit Font :=
  match fontPathOf fontName bold with
  | none => .ok .standard
  | some fontPath =>
    match w.fetch fontPath with
    | .error _ => .ok .standard
    | .ok (respOk, fontBytes) =>
      if !respOk then .ok .standard
      else
        match w.embedBytes fontBytes with
        | .error _ => .ok .standard
        | .ok font =>
          match w.encodeText font hebrewTest with
          | .error _ => .ok .standard
          | .ok _ => .ok (.custom font)

/-! ## Concrete fixtures used by evaluation theorems and witnesses -/

/-- A font metric giving every string the width 10 at every size. -/
def wConst : FontMetrics := fun _ _ => 10

/-- A font metric giving every string the width 1000 at every size. -/
def wWide : FontMetrics := fun _ _ => 1000

/-- A font loader resolving every family to the `wConst` metric. -/
def lfConst : FontLoader := fun _ _ => wConst

/-- A font loader resolving every family to the `wWide` metric. -/
def lfWide : FontLoader := fun _ _ => wWide

/-- A five-page document, each page 600 × 800 points. -/
def pages5 : List PageGeom := List.replicate 5 ⟨600, 800⟩

/-- A one-page document of 600 × 800 points. -/
def page1 : List PageGeom := [⟨600, 800⟩]

/-- Page numbering enabled with `startPage = 3`, `startNumber = 5`,
`bottom-center` (current-variant settings shape). -/
def pnStart3At5 : PageNumberingSettings where
  enabled := true
  startPage := 3
  startNumber := 5
  position := "bottom-center".data
  font := "Times-New-Roman".data
  fontSize := 12
  color := "#000000".data
  bold := false

/-- Page numbering switched off (current-variant settings shape). -/
def pnOff : PageNumberingSettings where
  enabled := false
  startPage := 1
  startNumber := 1
  position := "bottom-center".data
  font := "Times-New-Roman".data
  fontSize := 12
  color := "#000000".data
  bold := false

/-- Header switched off (current-variant settings shape). -/
def hdrOff : HeaderSettings where
  enabled := false
  text := []
  firstPageOnly := true
  distanceFromRight := 50
  distanceFromTop := 50
  font := "Times-New-Roman".data
  fontSize := 12
  color := "#000000".data
  bold := false

/-- Header enabled with the pure-Latin text `"Hello"`,
`distanceFromRight = 50`, `distanceFromTop = 50`, first page only. -/
def hdrHello : HeaderSettings where
  enabled := true
  text := "Hello".data
  firstPageOnly := true
  distanceFromRight := 50
  distanceFromTop := 50
  font := "Times-New-Roman".data
  fontSize := 12
  color := "#000000".data
  bold := false

/-- Header enabled with three newline-separated lines `"a\nb\nc"`. -/
def hdrThreeLines : HeaderSettings where
  enabled := true
  text := "a\nb\nc".data
  firstPageOnly := true
  distanceFromRight := 50
  distanceFromTop := 50
  font := "Times-New-Roman".data
  fontSize := 12
  color := "#000000".data
  bold := false

/-- Header enabled with whitespace-only text (current-variant shape). -/
def hdrBlank : HeaderSettings where
  enabled := true
  text := "  \n ".data
  firstPageOnly := true
  distanceFromRight := 50
  distanceFromTop := 50
  font := "Times-New-Roman".data
  fontSize := 12
  color := "#000000".data
  bold := false

/-- Page numbering with `startPage = 3`, `startNumber = 5` (snapshot-variant
settings shape). -/
def pnStart3At5V1 : PageNumberingV1 where
  startPage := 3
  startNumber := 5
  position := "bottom-center".data
  font := "Times-New-Roman".data
  fontSize := 12
  color := "#000000".data
  isBold := false

/-- Numbering-suppressing settings for the snapshot variant
(`startPage = 0` fails its `startPage > 0` guard). -/
def pnOffV1 : PageNumberingV1 where
  startPage := 0
  startNumber := 1
  position := "bottom-center".data
  font := "Times-New-Roman".data
  fontSize := 12
  color := "#000000".data
  isBold := false

/-- Empty header text for the snapshot variant. -/
def hdrOffV1 : HeaderV1 where
  text := []
  firstPageOnly := true
  posX := 2
  posY := 2
  font := "Times-New-Roman".data
  fontSize := 12
  color := "#000000".data
  isBold := false

/-- Snapshot-variant header with the pure-Latin text `"Hello"`, 2 cm from the
right and top edges. -/
def hdrHelloV1 : HeaderV1 where
  text := "Hello".data
  firstPageOnly := true
  posX := 2
  posY := 2
  font := "Times-New-Roman".data
  fontSize := 12
  color := "#000000".data
  isBold := false

/-- Snapshot-variant header with the Hebrew text `"שלום"`. -/
def hdrShalomV1 : HeaderV1 where
  text := "שלום".data
  firstPageOnly := true
  posX := 2
  posY := 2
  font := "Times-New-Roman".data
  fontSize := 12
  color := "#000000".data
  isBold := false

/-- Snapshot-variant header with three newline-separated lines `"a\nb\nc"`. -/
def hdrThreeLinesV1 : HeaderV1 where
  text := "a\nb\nc".data
  firstPageOnly := true
  posX := 2
  posY := 2
  font := "Times-New-Roman".data
  fontSize := 12
  color := "#000000".data
  isBold := false

/-! ## Claims -/

/-- Claim C1.  The claim states that `applyEdits` numbers no page before the
clamped `startPage` and labels the pages from there on with
`startNumber, startNumber+1, …`; for `startPage = 3`, `startNumber = 5` on a
5-page document, pages 1–2 unnumbered and pages 3,4,5 labeled "5","6","7".
The current `applyEdits` (`src/src/components/PDFEditor.tsx` lines 216–261)
violates this: it labels every page `i` with the literal `i + 1` and never
reads `startPage`/`startNumber`, so all five pages get "1".."5".  The earlier
snapshot `src/unnamed/part_001` implements the claimed (and, per §4.2 of the
spec, intended) counter-seeded behavior: no label on pages 1–2 and labels
"5","6","7" on pages 3,4,5. -/
theorem claim1_index_only_numbering_divergence :
    (applyEdits lfConst pages5 ⟨pnStart3At5, hdrOff⟩).map
        (fun ds => ds.map fun d => (d.pageIdx, d.text)) =
      .ok [(0, "1".data), (1, "2".data), (2, "3".data),
           (3, "4".data), (4, "5".data)] ∧
    (applyEditsV1 lfConst pages5 ⟨pnStart3At5V1, hdrOffV1⟩).map
        (fun ds => ds.map fun d => (d.pageIdx, d.text)) =
      some [(2, "5".data), (3, "6".data), (4, "7".data)] :=
  ⟨by rfl, by decide⟩

/-- Claim C2.  The claim states that a header line containing a Hebrew
character (U+0590–U+05FF) is drawn at
`x = pageWidth - distanceFromRight - textWidth` and any other line at
`x = distanceFromRight`, in both cases clamped to `x ≥ 0`.  The current
`applyEdits` (`src/src/components/PDFEditor.tsx` lines 276–291) violates
this: it always uses `x = pageWidth - textWidth - distanceFromRight` with no
Hebrew test and no clamp, so the pure-Latin header `"Hello"` on a 600-point
page with `distanceFromRight = 50` and text width 10 is drawn at `x = 540`
instead of `x = 50`.  The snapshot `src/unnamed/part_001` (and
`src/unnamed/part_002`) implements the claimed behavior: with a 2 cm
(56.7 pt) right distance, the Latin line lands at `x = 56.7`, the Hebrew
line `"שלום"` at `x = 600 - 56.7 - 10 = 533.3`, and an overlong Hebrew line
(width 1000) is clamped to `x = 0`. -/
theorem claim2_header_alignment_divergence :
    (applyEdits lfConst page1 ⟨pnOff, hdrHello⟩).map
        (fun ds => ds.map fun d => d.x) = .ok [540] ∧
    (applyEditsV1 lfConst page1 ⟨pnOffV1, hdrHelloV1⟩).map
        (fun ds => ds.map fun d => d.x) = some [567 / 10] ∧
    (applyEditsV1 lfConst page1 ⟨pnOffV1, hdrShalomV1⟩).map
        (fun ds => ds.map fun d => d.x) = some [5333 / 10] ∧
    (applyEditsV1 lfWide page1 ⟨pnOffV1, hdrShalomV1⟩).map
        (fun ds => ds.map fun d => d.x) = some [0] := by
  refine ⟨?_, ?_, ?_, ?_⟩
  · simp [applyEdits, headerDraws, pageNumberDraws, page1, pnOff, hdrHello,
      jsTrim, isJsSpace, lfConst, wConst, List.enum, List.enumFrom, Except.map]
    norm_num
  · simp [applyEditsV1, headerDrawsV1, headerPageDrawsV1, pageNumberDrawsV1,
      page1, pnOffV1, hdrHelloV1, jsTrim, isJsSpace, isHebrewChar,
      lfConst, wConst, List.enum, List.enumFrom, List.splitOn, List.splitOnP,
      List.splitOnP.go]
    norm_num
  · simp [applyEditsV1, headerDrawsV1, headerPageDrawsV1, pageNumberDrawsV1,
      page1, pnOffV1, hdrShalomV1, jsTrim, isJsSpace, isHebrewChar,
      lfConst, wConst, List.enum, List.enumFrom, List.splitOn, List.splitOnP,
      List.splitOnP.go]
    norm_num
  · simp [applyEditsV1, headerDrawsV1, headerPageDrawsV1, pageNumberDrawsV1,
      page1, pnOffV1, hdrShalomV1, jsTrim, isJsSpace, isHebrewChar,
      lfWide, wWide, List.enum, List.enumFrom, List.splitOn, List.splitOnP,
      List.splitOnP.go]
    norm_num

/-- Claim C3.  The claim states that an enabled header whose text has `k`
non-blank lines produces exactly `k` draw calls per target page, the first at
`y = pageHeight - distanceFromTop` and each following drawn line exactly
`fontSizePt * 1.5` lower.  The current `applyEdits`
(`src/src/components/PDFEditor.tsx` lines 276–291) violates this: it issues a
single draw call whose text is the whole header including the embedded
newlines.  For `"a\nb\nc"` on an 800-point-high page it performs one call at
`y = 750`, where the claim requires three calls; the snapshot
`src/unnamed/part_001` implements the claimed behavior, drawing "a", "b",
"c" at `y = 743.3, 725.3, 707.3` (2 cm top distance, font size 12, step
`12 * 1.5 = 18`). -/
theorem claim3_multiline_header_divergence :
    (applyEdits lfConst page1 ⟨pnOff, hdrThreeLines⟩).map
        (fun ds => ds.map fun d => (d.text, d.y)) =
      .ok [("a\nb\nc".data, 750)] ∧
    (applyEditsV1 lfConst page1 ⟨pnOffV1, hdrThreeLinesV1⟩).map
        (fun ds => ds.map fun d => (d.text, d.y)) =
      some [("a".data, 7433 / 10), ("b".data, 7253 / 10),
            ("c".data, 7073 / 10)] := by
  constructor
  · simp [applyEdits, headerDraws, pageNumberDraws, page1, pnOff, hdrThreeLines,
      jsTrim, isJsSpace, lfConst, wConst, List.enum, List.enumFrom, Except.map]
    norm_num
  · simp [applyEditsV1, headerDrawsV1, headerPageDrawsV1, pageNumberDrawsV1,
      page1, pnOffV1, hdrThreeLinesV1, jsTrim, isJsSpace, isHebrewChar,
      lfConst, wConst, List.enum, List.enumFrom, List.splitOn, List.splitOnP,
      List.splitOnP.go]
    norm_num

/-- A font world whose fetch and embed operations all succeed and whose
embedded font passes the Hebrew probe. -/
def wAllOk : FontWorld :=
  ⟨fun _ => .ok (true, [1]), fun _ => .ok ⟨1⟩, fun _ _ => .ok ()⟩

/-- A font world whose fetch throws (network error). -/
def wFetchThrow : FontWorld :=
  ⟨fun _ => .error (), fun _ => .ok ⟨1⟩, fun _ _ => .ok ()⟩

/-- A font world whose fetch returns a non-OK response. -/
def wFetchNotOk : FontWorld :=
  ⟨fun _ => .ok (false, []), fun _ => .ok ⟨1⟩, fun _ _ => .ok ()⟩

/-- A font world whose embedding of the fetched bytes throws. -/
def wEmbedFail : FontWorld :=
  ⟨fun _ => .ok (true, [1]), fun _ => .error (), fun _ _ => .ok ()⟩

/-- A font world whose embedded font fails the Hebrew encoding probe. -/
def wProbeFail : FontWorld :=
  ⟨fun _ => .ok (true, [1]), fun _ => .ok ⟨1⟩, fun _ _ => .error ()⟩

/-- Every run of `loadCustomFont` ends in one of its two `return`
statements: the standard fallback font or the embedded fetched font. -/
theorem loadCustomFont_standard_or_custom (w : FontWorld) (fontName : Str)
    (bold : Bool) :
    loadCustomFont w fontName bold = .ok .standard ∨
    ∃ f, loadCustomFont w fontName bold = .ok (.custom f) := by
  cases hp : fontPathOf fontName bold with
  | none => exact .inl (by simp [loadCustomFont, hp])
  | some path =>
    cases hf : w.fetch path with
    | error u => exact .inl (by simp [loadCustomFont, hp, hf])
    | ok p =>
      obtain ⟨respOk, fontBytes⟩ := p
      cases respOk with
      | false => exact .inl (by simp [loadCustomFont, hp, hf])
      | true =>
        cases he : w.embedBytes fontBytes with
        | error u => exact .inl (by simp [loadCustomFont, hp, hf, he])
        | ok f =>
          cases hc : w.encodeText f hebrewTest with
          | error u => exact .inl (by simp [loadCustomFont, hp, hf, he, hc])
          | ok u => exact .inr ⟨f, by simp [loadCustomFont, hp, hf, he, hc]⟩

/-- Claim C4.  For every input `(family, bold)` — including unknown family
values — and every behavior of the fetch/embed pipeline, `loadCustomFont`
never raises to its caller (the result is always `.ok`), and it returns the
built-in standard font when the family is unknown, when the fetch throws,
when the response is not OK, or when embedding the fetched bytes throws.
(`src/src/components/PDFEditor.tsx` lines 72–111.) -/
theorem claim4_loadCustomFont_total_fallback (w : FontWorld) (fontName : Str)
    (bold : Bool) :
    (∃ f, loadCustomFont w fontName bold = .ok f) ∧
    (fontPathOf fontName bold = none →
      loadCustomFont w fontName bold = .ok .standard) ∧
    (∀ path, fontPathOf fontName bold = some path → w.fetch path = .error () →
      loadCustomFont w fontName bold = .ok .standard) ∧
    (∀ path bytes, fontPathOf fontName bold = some path →
      w.fetch path = .ok (false, bytes) →
      loadCustomFont w fontName bold = .ok .standard) ∧
    (∀ path bytes, fontPathOf fontName bold = some path →
      w.fetch path = .ok (true, bytes) → w.embedBytes bytes = .error () →
      loadCustomFont w fontName bold = .ok .standard) := by
  refine ⟨?_, ?_, ?_, ?_, ?_⟩
  · rcases loadCustomFont_standard_or_custom w fontName bold with h | ⟨f, h⟩
    · exact ⟨.standard, h⟩
    · exact ⟨.custom f, h⟩
  · intro hp
    simp [loadCustomFont, hp]
  · intro path hp hf
    simp [loadCustomFont, hp, hf]
  · intro path bytes hp hf
    simp [loadCustomFont, hp, hf]
  · intro path bytes hp hf he
    simp [loadCustomFont, hp, hf, he]

/-- Claim C4 witness: the fallback conclusions instantiated at concrete
worlds — an unknown family, a throwing fetch on Roboto, a non-OK response on
Roboto, and a failing embed on Times-New-Roman all yield the standard
font. -/
theorem claim4_loadCustomFont_total_fallback_witness :
    loadCustomFont wAllOk "Arial".data false = .ok .standard ∧
    loadCustomFont wFetchThrow "Roboto".data false = .ok .standard ∧
    loadCustomFont wFetchNotOk "Roboto".data true = .ok .standard ∧
    loadCustomFont wEmbedFail "Times-New-Roman".data false = .ok .standard :=
  ⟨(claim4_loadCustomFont_total_fallback wAllOk "Arial".data false).2.1
      (by decide),
   (claim4_loadCustomFont_total_fallback wFetchThrow "Roboto".data false).2.2.1
      "./fonts/Roboto-Regular.ttf".data (by decide) rfl,
   (claim4_loadCustomFont_total_fallback wFetchNotOk "Roboto".data true).2.2.2.1
      "./fonts/Roboto-Bold.ttf".data [] (by decide) rfl,
   (claim4_loadCustomFont_total_fallback wEmbedFail
      "Times-New-Roman".data false).2.2.2.2
      "./fonts/times-new-roman.ttf".data [1] (by decide) rfl rfl⟩

/-- Claim C5.  After a successful fetch and embed, `loadCustomFont` probes
Hebrew-glyph support by encoding the canary string `hebrewTest = "שלום"`;
whenever that probe raises, the resolver returns the standard fallback font
instead of the fetched font, and no error propagates to the caller
(`src/src/components/PDFEditor.tsx` lines 98–106). -/
theorem claim5_hebrew_probe_fallback (w : FontWorld) (fontName : Str)
    (bold : Bool) (path : Str) (bytes : List Nat) (f : EmbeddedFont)
    (hp : fontPathOf fontName bold = some path)
    (hf : w.fetch path = .ok (true, bytes))
    (he : w.embedBytes bytes = .ok f)
    (hc : w.encodeText f hebrewTest = .error ()) :
    loadCustomFont w fontName bold = .ok .standard := by
  simp [loadCustomFont, hp, hf, he, hc]

/-- Claim C5 witness: in the concrete world whose embedded font rejects the
canary string, resolving Roboto yields the standard font. -/
theorem claim5_hebrew_probe_fallback_witness :
    loadCustomFont wProbeFail "Roboto".data false = .ok .standard :=
  claim5_hebrew_probe_fallback wProbeFail "Roboto".data false
    "./fonts/Roboto-Regular.ttf".data [1] ⟨1⟩ (by decide) rfl rfl rfl

/-- Claim C6.  On a document whose page list is empty, `applyEdits` fails
with the zero-pages error before attempting either step: the result is the
`emptyDocument` error, never an `.ok` carrying draw calls, for every font
loader and settings value (`src/src/components/PDFEditor.tsx` lines
206–208).  The snapshot variant's `applyEdits` likewise throws its
zero-pages error, which its own catch turns into the `null` result
(`src/unnamed/part_001` lines 183–185). -/
theorem claim6_empty_document_error (loadFont : FontLoader)
    (s : EditorSettings) (sv : EditorSettingsV1) :
    applyEdits loadFont [] s = .error .emptyDocument ∧
    (∀ ds, applyEdits loadFont [] s ≠ .ok ds) ∧
    applyEditsV1 loadFont [] sv = none := by
  have h0 : applyEdits loadFont [] s = .error .emptyDocument := rfl
  refine ⟨h0, ?_, rfl⟩
  intro ds h
  rw [h0] at h
  exact Except.noConfusion h

/-- Claim C6 witness: the empty page list with concrete loader and settings
values. -/
theorem claim6_empty_document_error_witness :
    applyEdits lfConst [] ⟨pnOff, hdrOff⟩ = .error .emptyDocument ∧
    applyEdits lfConst [] ⟨pnOff, hdrOff⟩ ≠ .ok [] ∧
    applyEditsV1 lfConst [] ⟨pnOffV1, hdrOffV1⟩ = none :=
  ⟨(claim6_empty_document_error lfConst ⟨pnOff, hdrOff⟩ ⟨pnOffV1, hdrOffV1⟩).1,
   (claim6_empty_document_error lfConst ⟨pnOff, hdrOff⟩ ⟨pnOffV1, hdrOffV1⟩).2.1 [],
   (claim6_empty_document_error lfConst ⟨pnOff, hdrOff⟩ ⟨pnOffV1, hdrOffV1⟩).2.2⟩

/-- Content of the edited document: each page of the input paired with the
overlay draw calls that target it.  With no draw calls the content is the
input's pages, each with an empty overlay list. -/
def renderedDoc (pages : List PageGeom) (draws : List DrawCall) :
    List (PageGeom × List DrawCall) :=
  pages.enum.map fun ip => (ip.2, draws.filter fun d => d.pageIdx == ip.1)

/-- Claim C7.  On a non-empty document with `pageNumbering.enabled = false`
and `header.enabled = false`, `applyEdits` draws no overlay on any page and
succeeds; the resulting document's per-page content carries no overlays,
i.e. equals the input pages unchanged
(`src/src/components/PDFEditor.tsx` lines 197–303). -/
theorem claim7_disabled_steps_identity (loadFont : FontLoader)
    (pages : List PageGeom) (s : EditorSettings)
    (hne : pages ≠ [])
    (hpn : s.pageNumbering.enabled = false)
    (hh : s.header.enabled = false) :
    applyEdits loadFont pages s = .ok [] ∧
    ∀ ds, applyEdits loadFont pages s = .ok ds →
      renderedDoc pages ds =
        pages.enum.map fun ip => (ip.2, ([] : List DrawCall)) := by
  have hlen : pages.length ≠ 0 := by
    simpa [List.length_eq_zero] using hne
  have h0 : applyEdits loadFont pages s = .ok [] := by
    simp [applyEdits, hlen, hpn, hh]
  refine ⟨h0, ?_⟩
  intro ds h
  rw [h0] at h
  have hds := Except.ok.inj h
  subst hds
  simp [renderedDoc]

/-- Claim C7 witness: both steps disabled on a concrete one-page document. -/
theorem claim7_disabled_steps_identity_witness :
    applyEdits lfConst page1 ⟨pnOff, hdrOff⟩ = .ok [] ∧
    ∀ ds, applyEdits lfConst page1 ⟨pnOff, hdrOff⟩ = .ok ds →
      renderedDoc page1 ds =
        page1.enum.map fun ip => (ip.2, ([] : List DrawCall)) :=
  claim7_disabled_steps_identity lfConst page1 ⟨pnOff, hdrOff⟩
    (by decide) rfl rfl

/-- A hex digit's value is at most 15. -/
theorem hexDigitVal_le_15 {c : Char} {d : Nat} (h : hexDigitVal c = some d) :
    d ≤ 15 := by
  unfold hexDigitVal at h
  dsimp only at h
  split_ifs at h with h1 h2 h3
  · injection h with h'
    omega
  · injection h with h'
    omega
  · injection h with h'
    omega

/-- A character with a hex-digit value is not the hash sign. -/
theorem hexDigit_ne_hash {c : Char} {d : Nat} (h : hexDigitVal c = some d) :
    ¬(c = '#') := by
  intro hc
  subst hc
  simp [hexDigitVal] at h

/-- Claim C8.  For every valid hex color string — six hex digits after an
optional `#` — `hexToRgb` returns the triple
`(R/255, G/255, B/255)` of the three parsed byte values, and each component
lies in `[0, 1]` (`src/src/components/PDFEditor.tsx` lines 59–69). -/
theorem claim8_hexToRgb_valid (c1 c2 c3 c4 c5 c6 : Char)
    (d1 d2 d3 d4 d5 d6 : Nat)
    (h1 : hexDigitVal c1 = some d1) (h2 : hexDigitVal c2 = some d2)
    (h3 : hexDigitVal c3 = some d3) (h4 : hexDigitVal c4 = some d4)
    (h5 : hexDigitVal c5 = some d5) (h6 : hexDigitVal c6 = some d6) :
    hexToRgb ('#' :: [c1, c2, c3, c4, c5, c6]) =
      some (((16 * d1 + d2 : ℕ) : ℚ) / 255, ((16 * d3 + d4 : ℕ) : ℚ) / 255,
            ((16 * d5 + d6 : ℕ) : ℚ) / 255) ∧
    hexToRgb [c1, c2, c3, c4, c5, c6] =
      some (((16 * d1 + d2 : ℕ) : ℚ) / 255, ((16 * d3 + d4 : ℕ) : ℚ) / 255,
            ((16 * d5 + d6 : ℕ) : ℚ) / 255) ∧
    (0 ≤ ((16 * d1 + d2 : ℕ) : ℚ) / 255 ∧ ((16 * d1 + d2 : ℕ) : ℚ) / 255 ≤ 1) ∧
    (0 ≤ ((16 * d3 + d4 : ℕ) : ℚ) / 255 ∧ ((16 * d3 + d4 : ℕ) : ℚ) / 255 ≤ 1) ∧
    (0 ≤ ((16 * d5 + d6 : ℕ) : ℚ) / 255 ∧ ((16 * d5 + d6 : ℕ) : ℚ) / 255 ≤ 1) := by
  have bound : ∀ a b : Nat, a ≤ 15 → b ≤ 15 →
      0 ≤ ((16 * a + b : ℕ) : ℚ) / 255 ∧ ((16 * a + b : ℕ) : ℚ) / 255 ≤ 1 := by
    intro a b ha hb
    constructor
    · positivity
    · rw [div_le_one (by norm_num)]
      have : (16 * a + b : ℕ) ≤ 255 := by omega
      calc ((16 * a + b : ℕ) : ℚ) ≤ ((255 : ℕ) : ℚ) := by exact_mod_cast this
        _ = 255 := by norm_num
  refine ⟨?_, ?_, bound d1 d2 (hexDigitVal_le_15 h1) (hexDigitVal_le_15 h2),
    bound d3 d4 (hexDigitVal_le_15 h3) (hexDigitVal_le_15 h4),
    bound d5 d6 (hexDigitVal_le_15 h5) (hexDigitVal_le_15 h6)⟩ <;>
  simp [hexToRgb, stripHash, jsParseIntHex, hexRunVal,
    h1, h2, h3, h4, h5, h6, hexDigit_ne_hash h1]

/-- Claim C8 witness: the valid color `"#80FF00"` parses to
`(128/255, 255/255, 0/255)` with all components in range. -/
theorem claim8_hexToRgb_valid_witness :
    hexToRgb ('#' :: ['8', '0', 'F', 'F', '0', '0']) =
      some (((16 * 8 + 0 : ℕ) : ℚ) / 255, ((16 * 15 + 15 : ℕ) : ℚ) / 255,
            ((16 * 0 + 0 : ℕ) : ℚ) / 255) ∧
    hexToRgb ['8', '0', 'F', 'F', '0', '0'] =
      some (((16 * 8 + 0 : ℕ) : ℚ) / 255, ((16 * 15 + 15 : ℕ) : ℚ) / 255,
            ((16 * 0 + 0 : ℕ) : ℚ) / 255) ∧
    (0 ≤ ((16 * 8 + 0 : ℕ) : ℚ) / 255 ∧ ((16 * 8 + 0 : ℕ) : ℚ) / 255 ≤ 1) ∧
    (0 ≤ ((16 * 15 + 15 : ℕ) : ℚ) / 255 ∧ ((16 * 15 + 15 : ℕ) : ℚ) / 255 ≤ 1) ∧
    (0 ≤ ((16 * 0 + 0 : ℕ) : ℚ) / 255 ∧ ((16 * 0 + 0 : ℕ) : ℚ) / 255 ≤ 1) :=
  claim8_hexToRgb_valid '8' '0' 'F' 'F' '0' '0' 8 0 15 15 0 0
    (by decide) (by decide) (by decide) (by decide) (by decide) (by decide)

/-- Claim C9.  For a numbered page with position `"bottom-center"` and
`pageWidth ≥ textWidth`, the computed draw origin is
`x = (pageWidth - textWidth) / 2` with `y` equal to the bottom margin
constant of the variant — 50 in `src/src/components/PDFEditor.tsx`
(lines 227–231), 30 in `src/unnamed/part_001` (lines 215–229) — and both
constants lie in the claimed 30–50 point range; accordingly every
bottom-center page-number draw call of either variant has that `y`. -/
theorem claim9_bottom_center (width height textWidth : ℚ)
    (hw : textWidth ≤ width) :
    positionXY "bottom-center".data width height textWidth =
      ((width - textWidth) / 2, 50) ∧
    positionXYV1 "bottom-center".data width height textWidth =
      ((width - textWidth) / 2, 30) ∧
    (∀ (widthOf : FontMetrics) (pages : List PageGeom)
       (pn : PageNumberingSettings), pn.position = "bottom-center".data →
       ∀ d ∈ pageNumberDraws widthOf pages pn, d.y = 50) ∧
    (∀ (widthOf : FontMetrics) (pages : List PageGeom)
       (pn : PageNumberingV1), pn.position = "bottom-center".data →
       ∀ d ∈ pageNumberDrawsV1 widthOf pages pn, d.y = 30) ∧
    ((30 : ℚ) ≤ 50 ∧ (50 : ℚ) ≤ 50 ∧ (30 : ℚ) ≤ 30 ∧ (30 : ℚ) ≤ 50) := by
  have hc : inclStr "bottom-center".data "center".data = true := by decide
  have hb : inclStr "bottom-center".data "bottom".data = true := by decide
  refine ⟨by simp [positionXY], by simp [positionXYV1, hc, hb], ?_, ?_,
    by norm_num⟩
  · intro widthOf pages pn hpos d hd
    simp only [pageNumberDraws, List.mem_map] at hd
    obtain ⟨ip, _, rfl⟩ := hd
    simp [positionXY, hpos]
  · intro widthOf pages pn hpos d hd
    simp only [pageNumberDrawsV1, List.mem_map] at hd
    obtain ⟨ip, _, rfl⟩ := hd
    simp [positionXYV1, hpos, hc, hb]

/-- Claim C9 witness: the bottom-center origin on a 600 × 800 page with text
width 10 in both variants. -/
theorem claim9_bottom_center_witness :
    (10 : ℚ) ≤ 600 ∧
    positionXY "bottom-center".data 600 800 10 = ((600 - 10) / 2, 50) ∧
    positionXYV1 "bottom-center".data 600 800 10 = ((600 - 10) / 2, 30) :=
  ⟨by norm_num, (claim9_bottom_center 600 800 10 (by norm_num)).1,
    (claim9_bottom_center 600 800 10 (by norm_num)).2.1⟩

/-- The header settings with the `enabled` flag forced off and all other
fields kept. -/
def disableHeader (s : EditorSettings) : EditorSettings :=
  ⟨s.pageNumbering,
   ⟨false, s.header.text, s.header.firstPageOnly, s.header.distanceFromRight,
    s.header.distanceFromTop, s.header.font, s.header.fontSize,
    s.header.color, s.header.bold⟩⟩

/-- Claim C10.  On a non-empty document with `header.enabled = true` but a
header text that is blank after trimming, `applyEdits` silently skips the
whole header step: it succeeds with exactly the numbering step's draw calls
(no header draw, no header error), and its result coincides with the result
of running the same settings with the header disabled
(`src/src/components/PDFEditor.tsx` line 269). -/
theorem claim10_blank_header_skipped (loadFont : FontLoader)
    (pages : List PageGeom) (s : EditorSettings)
    (hne : pages.length ≠ 0)
    (hen : s.header.enabled = true)
    (hblank : jsTrim s.header.text = []) :
    applyEdits loadFont pages s =
      .ok (if s.pageNumbering.enabled then
            pageNumberDraws (loadFont s.pageNumbering.font s.pageNumbering.bold)
              pages s.pageNumbering
          else []) ∧
    applyEdits loadFont pages s =
      applyEdits loadFont pages (disableHeader s) := by
  constructor
  · simp [applyEdits, hne, hblank]
  · simp [applyEdits, disableHeader, hne, hblank]

/-- Claim C10 witness: numbering enabled, header enabled with
whitespace-only text, on the concrete five-page document. -/
theorem claim10_blank_header_skipped_witness :
    applyEdits lfConst pages5 ⟨pnStart3At5, hdrBlank⟩ =
      .ok (if pnStart3At5.enabled then
            pageNumberDraws (lfConst pnStart3At5.font pnStart3At5.bold)
              pages5 pnStart3At5
          else []) ∧
    applyEdits lfConst pages5 ⟨pnStart3At5, hdrBlank⟩ =
      applyEdits lfConst pages5 (disableHeader ⟨pnStart3At5, hdrBlank⟩) :=
  claim10_blank_header_skipped lfConst pages5 ⟨pnStart3At5, hdrBlank⟩
    (by decide) rfl (by decide)

end PdfEasyEdits
